import Mathlib

/-!
Verification of the Gherkin-generation utility script
(`generate-gherkin.py`, PurgoAI/iqoq-testcases).

The script is embedded shallowly:
* strings manipulated by the regex heuristics are `List Char`;
* the Azure OpenAI chat-completion call is an oracle parameter
  `complete : String → Except String (Option String)`, where `.error e`
  stands for a raised exception and `.ok none` for a response whose
  `message.content` is `None`;
* the filesystem is a map `String → Option String` from paths to file
  contents; `open(path, "w")` followed by `write` is a map update;
* console output is a `List String` log accumulated alongside the
  filesystem.
-/

namespace Gherkin

/-- Python whitespace for ASCII text: the characters matched by `\s` in
`re` and stripped by `str.strip()` (space, tab, newline, carriage
return, vertical tab, form feed). -/
def isPySpace (c : Char) : Bool :=
  c == ' ' || c == '\t' || c == '\n' || c == '\r' || c == '\x0b' || c == '\x0c'

/-- Python `str.strip()`: remove leading and trailing whitespace. -/
def pyStrip (l : List Char) : List Char :=
  ((l.dropWhile isPySpace).reverse.dropWhile isPySpace).reverse

/-- `lstarts pat s` is true when `pat` is an initial segment of `s`
(the anchored part of a regex literal match). -/
def lstarts : List Char → List Char → Bool
  | [], _ => true
  | _ :: _, [] => false
  | a :: as, b :: bs => a == b && lstarts as bs

/-- Index of the first occurrence of `pat` in `s`, if any: the
position at which `re.search` of a literal pattern matches, and the
value of Python `s.index(pat)` / the test `pat in s`. -/
def findSub (pat : List Char) : List Char → Option Nat
  | [] => if lstarts pat [] then some 0 else none
  | c :: t => if lstarts pat (c :: t) then some 0 else (findSub pat t).map (fun n => n + 1)

/-- Case-insensitive `lstarts` (regex flag `re.IGNORECASE`). -/
def lcStarts (pat s : List Char) : Bool :=
  lstarts (pat.map Char.toLower) (s.map Char.toLower)

/-- The triple-backtick fence delimiter. -/
def bt3 : List Char := ['\x60', '\x60', '\x60']

/-- The optional fence tag `gherkin`. -/
def gherkinTag : List Char := ['g', 'h', 'e', 'r', 'k', 'i', 'n']

/-- The literal `Feature:` marker. -/
def featureTok : List Char := ['F', 'e', 'a', 't', 'u', 'r', 'e', ':']

/-- The literal `Certainly!` preamble phrase. -/
def certainlyTok : List Char := ['C', 'e', 'r', 't', 'a', 'i', 'n', 'l', 'y', '!']

/-- The literal `Here is` preamble phrase. -/
def hereIsTok : List Char := ['H', 'e', 'r', 'e', ' ', 'i', 's']

/-- The literal `Below is` preamble phrase. -/
def belowIsTok : List Char := ['B', 'e', 'l', 'o', 'w', ' ', 'i', 's']

/-- `re.search(r'```(?:gherkin)?([\s\S]*?)```', response)`, returning
`group(1)` of the match when one exists.  The search scans positions
left to right; at a position starting with three backticks the engine
first tries to consume the optional `gherkin` tag, then matches the
lazy group up to the nearest later triple backtick, and backtracks to
the untagged alternative if that fails; if no closing fence exists the
search moves to the next position. -/
def fenceMatch : List Char → Option (List Char)
  | [] => none
  | c :: t =>
    if lstarts bt3 (c :: t) then
      if lstarts gherkinTag (t.drop 2) then
        match findSub bt3 ((t.drop 2).drop 7) with
        | some j => some (((t.drop 2).drop 7).take j)
        | none =>
          match findSub bt3 (t.drop 2) with
          | some j => some ((t.drop 2).take j)
          | none => fenceMatch t
      else
        match findSub bt3 (t.drop 2) with
        | some j => some ((t.drop 2).take j)
        | none => fenceMatch t
    else fenceMatch t

/-- One substitution `re.sub(r'^\s*PHRASE.*?\n', '', s, flags=re.IGNORECASE)`.
Without `re.MULTILINE` the anchor `^` matches only at the start of the
string, so at most one replacement happens: greedy `\s*` takes all the
leading whitespace (each phrase starts with a letter, so shorter
whitespace runs cannot match), then the phrase must follow
case-insensitively, and `.*?\n` consumes up to and including the first
newline after the phrase (`.` cannot match a newline). -/
def subLeadingLine (phrase s : List Char) : List Char :=
  if lcStarts phrase (s.dropWhile isPySpace) then
    match findSub ['\n'] ((s.dropWhile isPySpace).drop phrase.length) with
    | some j => ((s.dropWhile isPySpace).drop phrase.length).drop (j + 1)
    | none => s
  else s

/-- `extract_gherkin_code(response)`: first a fenced code block, else
the suffix from the first `Feature:`, else the response with up to
three known preamble lines removed; every branch ends with
`.strip()`. -/
def extract_gherkin_code (response : List Char) : List Char :=
  match fenceMatch response with
  | some code => pyStrip code
  | none =>
    match findSub featureTok response with
    | some i => pyStrip (response.drop i)
    | none =>
      pyStrip (subLeadingLine belowIsTok
        (subLeadingLine hereIsTok (subLeadingLine certainlyTok response)))

/-- One record of the `api_calls` array of a test definition.  Every
field is optional; `build_prompt` reads each one with `dict.get` and a
default.  Step numbers are modelled as integers (`str(n)` rendering
agrees with `toString : Int → String`). -/
structure ApiCall where
  step : Option Int
  name : Option String
  method : Option String
  api_url : Option String

/-- A parsed JSON test definition.  `response_schema` is used only for
display, so it is abstracted as the already pretty-printed
`json.dumps(schema, indent=2)` text. -/
structure TestData where
  test_description : Option String
  test_code : Option String
  api_calls : Option (List ApiCall)
  response_schema : Option String

/-- `json.dumps({}, indent=2)`, the rendering of the default response
schema (the characters are brace escapes). -/
def schemaDefault : String := "\x7b\x7d"

/-- One line of the workflow summary:
`f"Step {call.get('step', idx+1)}: {call.get('name', 'API Call')} ({call.get('method', 'GET')} {call.get('api_url', '')})"`. -/
def renderStep (idx : Nat) (c : ApiCall) : String :=
  "Step " ++ (match c.step with
              | some n => toString n
              | none => toString (idx + 1)) ++
  ": " ++ c.name.getD "API Call" ++
  " (" ++ c.method.getD "GET" ++ " " ++ c.api_url.getD "" ++ ")"

/-- `'\n      '.join([...])` over the enumerated `api_calls`. -/
def stepsSummary (calls : List ApiCall) : String :=
  String.intercalate "\n      " (calls.enum.map (fun p => renderStep p.1 p.2))

/-- The f-string template returned by `build_prompt`, with the four
interpolated holes as parameters.  Whitespace is exactly that of the
source (six-space indentation, empty separator lines, a four-space
final line); the `\x27` escapes are the apostrophes around
`Feature:`. -/
def promptText (desc code steps schema : String) : String :=
  "\n      Generate Gherkin code for the following multi-step API compliance test:\n\n      Test Description: "
  ++ desc
  ++ "\n      Test Code: "
  ++ code
  ++ "\n\n      Multi-Step Workflow:\n      "
  ++ steps
  ++ "\n\n      Expected Response Schema: "
  ++ schema
  ++ "\n\n      IMPORTANT:\n      - Respond ONLY with the raw Gherkin code.\n      - No explanations, markdown formatting, or code blocks.\n      - Start directly with \x27Feature:\x27\n      - Include Scenario with Given, When, Then steps that describe this multi-step compliance test workflow\n      - Focus on the business logic and compliance validation, not individual API details\n    "

/-- `build_prompt(test_data)`. -/
def build_prompt (td : TestData) : String :=
  promptText (td.test_description.getD "") (td.test_code.getD "")
    (stepsSummary (td.api_calls.getD [])) (td.response_schema.getD schemaDefault)

/-- The fallback text used when the completion response carries no
content (`response.choices[0].message.content or 'Failed to generate Gherkin code'`). -/
def fallbackMsg : String := "Failed to generate Gherkin code"

/-- `response.choices[0].message.content or 'Failed to generate Gherkin code'`:
Python `or` replaces a falsy left operand (`None` or the empty string)
with the fallback literal. -/
def orFallback : Option String → String
  | none => fallbackMsg
  | some s => if s = "" then fallbackMsg else s

/-- `generate_gherkin_with_llm(test_data, openai_client)`.  The network
call is the oracle `complete`; `.error e` models any exception raised
inside the `try` block (network, auth, empty `choices`, malformed
response), `.ok none` a `None` message content.  The result pairs the
returned value (`none` models Python `None`) with the console lines
printed by the function. -/
def generate_gherkin_with_llm (complete : String → Except String (Option String))
    (td : TestData) : Option String × List String :=
  match complete (build_prompt td) with
  | .error e => (none, ["    Error generating Gherkin code: " ++ e])
  | .ok content =>
    (some ((extract_gherkin_code (orFallback content).toList).asString), [])

/-- One input JSON file of a platform directory: its stem (file name
without the `.json` extension) and the outcome of `json.load`
(`.error` models a parse failure raising inside the per-file `try`). -/
structure InputFile where
  stem : String
  parse : Except String TestData

/-- The filesystem, as a map from paths to file contents. -/
def FS : Type := String → Option String

/-- `open(path, 'w'); write(content)`: update the map at `path`,
overwriting any previous contents. -/
def fsWrite (fs : FS) (path content : String) : FS :=
  fun p => if p = path then some content else fs p

/-- The output path `gherkin_dir / f"{test_code}.gherkin"` with
`gherkin_dir = Path(base_dir) / 'gherkin' / platform`. -/
def gherkinPath (base platform test_code : String) : String :=
  base ++ "/gherkin/" ++ platform ++ "/" ++ test_code ++ ".gherkin"

/-- The body of the per-file loop of `generate_gherkin_for_platform`:
parse the file, derive `test_code` (defaulting to the file stem), call
the LLM wrapper, and write the artifact when the result is truthy
(neither `None` nor the empty string); every failure is logged and
leaves the filesystem unchanged. -/
def processOneFile (complete : String → Except String (Option String))
    (base platform : String) (st : FS × List String) (f : InputFile) : FS × List String :=
  match f.parse with
  | .error e => (st.1, st.2 ++ ["  Error processing " ++ f.stem ++ ".json: " ++ e])
  | .ok td =>
    match (generate_gherkin_with_llm complete td).1 with
    | some content =>
      if content = "" then
        (st.1, st.2 ++ ["  Processing " ++ td.test_code.getD f.stem ++ "..."]
          ++ (generate_gherkin_with_llm complete td).2
          ++ ["    Failed to generate Gherkin for " ++ td.test_code.getD f.stem])
      else
        (fsWrite st.1 (gherkinPath base platform (td.test_code.getD f.stem)) content,
         st.2 ++ ["  Processing " ++ td.test_code.getD f.stem ++ "..."]
           ++ (generate_gherkin_with_llm complete td).2
           ++ ["    Created gherkin/" ++ platform ++ "/" ++ td.test_code.getD f.stem
               ++ ".gherkin"])
    | none =>
      (st.1, st.2 ++ ["  Processing " ++ td.test_code.getD f.stem ++ "..."]
        ++ (generate_gherkin_with_llm complete td).2
        ++ ["    Failed to generate Gherkin for " ++ td.test_code.getD f.stem])

/-- The per-file loop of `generate_gherkin_for_platform`, folding the
per-file body over the `*.json` files.  Each iteration is wrapped in a
`try`/`except` in the source, so no exception escapes the loop and
every file is visited. -/
def runPlatformFiles (complete : String → Except String (Option String))
    (base platform : String) (files : List InputFile) (st : FS × List String) :
    FS × List String :=
  files.foldl (processOneFile complete base platform) st

/-- `generate_gherkin_for_platform(base_dir, platform, openai_client)`.
`dir = none` models a missing platform directory; otherwise `dir` holds
the `*.json` files in directory-listing order.  Directory creation
(`mkdir(parents=True, exist_ok=True)`) has no effect on the
path-to-contents map and is not represented. -/
def generate_gherkin_for_platform (complete : String → Except String (Option String))
    (base platform : String) (dir : Option (List InputFile))
    (st : FS × List String) : FS × List String :=
  match dir with
  | none => (st.1, st.2 ++ ["  Platform " ++ platform ++ " directory not found, skipping"])
  | some files =>
    if files.isEmpty then
      (st.1, st.2 ++ ["  No JSON files found in " ++ platform])
    else
      ((runPlatformFiles complete base platform files st).1,
       (runPlatformFiles complete base platform files st).2
         ++ ["  Processed " ++ toString files.length ++ " tests in " ++ platform])

/-- The four environment variables read at startup. -/
structure Config where
  api_version : Option String
  endpoint : Option String
  model : Option String
  api_key : Option String

/-- Python truthiness of an `os.getenv` result: `None` and the empty
string are falsy. -/
def pyTruthy : Option String → Bool
  | none => false
  | some s => s != ""

/-- `all([AZURE_OPENAI_API_KEY, AZURE_OPENAI_ENDPOINT, AZURE_OPENAI_API_VERSION, AZURE_OPENAI_API_MODEL])`. -/
def configValid (cfg : Config) : Bool :=
  pyTruthy cfg.api_key && pyTruthy cfg.endpoint && pyTruthy cfg.api_version && pyTruthy cfg.model

/-- The guidance printed before `exit(1)` when configuration is
missing. -/
def guidance : List String :=
  ["Error: Missing Azure OpenAI configuration!",
   "Please copy .env.example to .env and fill in your credentials."]

/-- The three hardcoded platform names, in processing order. -/
def platforms : List String := ["common", "azure", "aws"]

/-- The `__main__` block: validate the configuration, then walk the
three platforms in sequence.  `lookup` maps a platform name to its
directory contents (`none` when the directory does not exist).  The
result is `.error (1, guidance)` when validation fails (the process
exits with status 1 before constructing the client, so the `complete`
oracle, `lookup` and `fs` are never consulted), and otherwise the final
filesystem and log.  Startup banner prints are omitted from the log
model. -/
def mainRun (cfg : Config) (complete : String → Except String (Option String))
    (base : String) (lookup : String → Option (List InputFile)) (fs : FS) :
    Except (Nat × List String) (FS × List String) :=
  if configValid cfg then
    .ok (platforms.foldl
      (fun st p => generate_gherkin_for_platform complete base p (lookup p)
        (st.1, st.2 ++ ["Processing " ++ p])) (fs, []))
  else .error (1, guidance)

theorem lstarts_append_self (p r : List Char) : lstarts p (p ++ r) = true := by
  induction p with
  | nil => rfl
  | cons a as ih => simp [lstarts, ih]

theorem lstarts_nil_iff (p : List Char) : lstarts p [] = true ↔ p = [] := by
  cases p <;> simp [lstarts]

theorem lstarts_extend {p a : List Char} (b : List Char) (h : lstarts p a = true) :
    lstarts p (a ++ b) = true := by
  induction p generalizing a with
  | nil => rfl
  | cons x xs ih =>
    cases a with
    | nil => exact absurd h (by simp [lstarts])
    | cons y ys =>
      simp only [lstarts, Bool.and_eq_true, beq_iff_eq] at h
      simp only [List.cons_append, lstarts, Bool.and_eq_true, beq_iff_eq]
      exact ⟨h.1, ih h.2⟩

theorem lstarts_length {p s : List Char} (h : lstarts p s = true) :
    p.length ≤ s.length := by
  induction p generalizing s with
  | nil => simp
  | cons x xs ih =>
    cases s with
    | nil => exact absurd h (by simp [lstarts])
    | cons y ys =>
      simp only [lstarts, Bool.and_eq_true] at h
      exact Nat.succ_le_succ (ih h.2)

theorem findSub_eq_some {pat : List Char} (hpat : pat ≠ []) :
    ∀ (n : Nat) (s : List Char), lstarts pat (s.drop n) = true →
      (∀ i, i < n → lstarts pat (s.drop i) = false) →
      findSub pat s = some n := by
  intro n
  induction n with
  | zero =>
    intro s h _
    cases s with
    | nil => exact absurd ((lstarts_nil_iff pat).mp h) hpat
    | cons c t =>
      rw [List.drop_zero] at h
      simp [findSub, h]
  | succ n ih =>
    intro s h hb
    cases s with
    | nil => exact absurd ((lstarts_nil_iff pat).mp h) hpat
    | cons c t =>
      have h0 : lstarts pat (c :: t) = false := by
        have := hb 0 (Nat.succ_pos n)
        rwa [List.drop_zero] at this
      have hrec : findSub pat t = some n :=
        ih t h (fun i hi => hb (i + 1) (Nat.succ_lt_succ hi))
      simp [findSub, h0, hrec]

theorem dropWhile_dropWhile (p : Char → Bool) (l : List Char) :
    (l.dropWhile p).dropWhile p = l.dropWhile p := by
  induction l with
  | nil => rfl
  | cons c t ih =>
    cases hc : p c with
    | true => simpa [List.dropWhile_cons, hc] using ih
    | false => simp [List.dropWhile_cons, hc]

theorem dropWhile_suffix_ex (p : Char → Bool) (l : List Char) :
    ∃ t, t ++ l.dropWhile p = l := by
  induction l with
  | nil => exact ⟨[], rfl⟩
  | cons c t ih =>
    cases hc : p c with
    | true =>
      obtain ⟨u, hu⟩ := ih
      exact ⟨c :: u, by simp [List.dropWhile_cons, hc, hu]⟩
    | false => exact ⟨[], by simp [List.dropWhile_cons, hc]⟩

theorem length_dropWhile_le_self (p : Char → Bool) (l : List Char) :
    (l.dropWhile p).length ≤ l.length := by
  induction l with
  | nil => simp
  | cons c t ih =>
    cases hc : p c with
    | true =>
      simp only [List.dropWhile_cons, hc, if_pos rfl]
      exact Nat.le_succ_of_le ih
    | false => simp [List.dropWhile_cons, hc]

theorem pc_false_of_dropWhile_self {p : Char → Bool} {c : Char} {t : List Char}
    (h : List.dropWhile p (c :: t) = c :: t) : p c = false := by
  cases hc : p c with
  | false => rfl
  | true =>
    rw [List.dropWhile_cons, hc, if_pos rfl] at h
    have hlen := length_dropWhile_le_self p t
    rw [h] at hlen
    simp at hlen

theorem dropWhile_eq_self_of_append {p : Char → Bool} {q u l : List Char}
    (hql : q ++ u = l) (h : List.dropWhile p l = l) : List.dropWhile p q = q := by
  cases q with
  | nil => rfl
  | cons c q2 =>
    have hl : l = c :: (q2 ++ u) := by rw [← hql]; rfl
    rw [hl] at h
    rw [List.dropWhile_cons, pc_false_of_dropWhile_self h]
    simp

theorem pyStrip_idem (l : List Char) : pyStrip (pyStrip l) = pyStrip l := by
  unfold pyStrip
  have hda : List.dropWhile isPySpace (l.dropWhile isPySpace) = l.dropWhile isPySpace :=
    dropWhile_dropWhile _ l
  have h1 : List.dropWhile isPySpace
      ((List.dropWhile isPySpace (l.dropWhile isPySpace).reverse).reverse)
      = (List.dropWhile isPySpace (l.dropWhile isPySpace).reverse).reverse := by
    obtain ⟨t, ht⟩ := dropWhile_suffix_ex isPySpace (l.dropWhile isPySpace).reverse
    have happ : (List.dropWhile isPySpace (l.dropWhile isPySpace).reverse).reverse
        ++ t.reverse = l.dropWhile isPySpace := by
      rw [← List.reverse_append, ht, List.reverse_reverse]
    exact dropWhile_eq_self_of_append happ hda
  rw [h1, List.reverse_reverse, dropWhile_dropWhile]

/-- C10: for every input string the Text Extractor returns a string (in
this total embedding it never fails and never returns a `none`), and
the returned string carries no leading or trailing whitespace: it is a
fixed point of `str.strip()`. -/
theorem extract_gherkin_code_trimmed (s : List Char) :
    pyStrip (extract_gherkin_code s) = extract_gherkin_code s := by
  unfold extract_gherkin_code
  cases h1 : fenceMatch s with
  | some code => exact pyStrip_idem code
  | none =>
    cases h2 : findSub featureTok s with
    | some i => exact pyStrip_idem _
    | none => exact pyStrip_idem _

theorem drop2_cons2 (a b : Char) (l : List Char) : (a :: (b :: l)).drop 2 = l := rfl

theorem drop7_gherkinTag (l : List Char) : (gherkinTag ++ l).drop 7 = l := rfl

theorem lstarts_bt3_head (R : List Char) :
    lstarts bt3 ('\x60' :: ('\x60' :: ('\x60' :: R))) = true := by
  simp [bt3, lstarts]

theorem fenceMatch_skip (Q : List Char) :
    ∀ pre : List Char,
      (∀ i, i < pre.length → lstarts bt3 ((pre ++ Q).drop i) = false) →
      fenceMatch (pre ++ Q) = fenceMatch Q := by
  intro pre
  induction pre with
  | nil => intro _; rfl
  | cons c t ih =>
    intro h
    have h0 : lstarts bt3 (c :: (t ++ Q)) = false := by
      have := h 0 (by simp)
      rwa [List.drop_zero, List.cons_append] at this
    show fenceMatch (c :: (t ++ Q)) = fenceMatch Q
    rw [fenceMatch, h0]
    simp only [Bool.false_eq_true, if_false]
    exact ih (fun i hi => by
      have := h (i + 1) (by simpa using Nat.succ_lt_succ hi)
      rwa [List.cons_append, List.drop_succ_cons] at this)

theorem findSub_close (inner post : List Char)
    (hclose : ∀ i, i < inner.length →
      lstarts bt3 ((inner ++ (bt3 ++ post)).drop i) = false) :
    findSub bt3 (inner ++ (bt3 ++ post)) = some inner.length := by
  apply findSub_eq_some (by simp [bt3]) inner.length _ _ hclose
  rw [List.drop_left]
  exact lstarts_append_self bt3 post

theorem fenceMatch_tagged (inner post : List Char)
    (hclose : findSub bt3 (inner ++ (bt3 ++ post)) = some inner.length) :
    fenceMatch (bt3 ++ (gherkinTag ++ (inner ++ (bt3 ++ post)))) = some inner := by
  show fenceMatch ('\x60' :: ('\x60' :: ('\x60' :: (gherkinTag ++ (inner ++ (bt3 ++ post))))))
      = some inner
  rw [fenceMatch, lstarts_bt3_head, drop2_cons2, lstarts_append_self, drop7_gherkinTag]
  simp only [if_true, hclose, List.take_left]

theorem fenceMatch_untagged (inner post : List Char)
    (hng : lstarts gherkinTag (inner ++ (bt3 ++ post)) = false)
    (hclose : findSub bt3 (inner ++ (bt3 ++ post)) = some inner.length) :
    fenceMatch (bt3 ++ (inner ++ (bt3 ++ post))) = some inner := by
  show fenceMatch ('\x60' :: ('\x60' :: ('\x60' :: (inner ++ (bt3 ++ post))))) = some inner
  rw [fenceMatch, lstarts_bt3_head, drop2_cons2, hng]
  simp only [if_true, Bool.false_eq_true, if_false, hclose, List.take_left]

/-- C1: a response of the shape `pre ++ fence ++ tag ++ inner ++ fence ++ post`
(`tag` being empty or the word `gherkin`) extracts to the trimmed block
contents `inner`, with the fence markers and the tag removed, whatever
the surrounding text `pre` and `post` are.  The side conditions pin
down "the first such block": no triple backtick occurs before the
opening fence, the closing fence is the first triple backtick after the
contents (the regex group is lazy), and an untagged block does not
itself begin with the tag word `gherkin` (the extractor would read that
word as the tag). -/
theorem extract_first_fenced_block (pre tag inner post : List Char)
    (htag : tag = [] ∨ tag = gherkinTag)
    (hfirst : ∀ i, i < pre.length →
      lstarts bt3 ((pre ++ (bt3 ++ (tag ++ (inner ++ (bt3 ++ post))))).drop i) = false)
    (hclose : ∀ i, i < inner.length →
      lstarts bt3 ((inner ++ (bt3 ++ post)).drop i) = false)
    (hng : tag = [] → lstarts gherkinTag (inner ++ (bt3 ++ post)) = false) :
    extract_gherkin_code (pre ++ (bt3 ++ (tag ++ (inner ++ (bt3 ++ post)))))
      = pyStrip inner := by
  have hc : findSub bt3 (inner ++ (bt3 ++ post)) = some inner.length :=
    findSub_close inner post hclose
  have hfm : fenceMatch (pre ++ (bt3 ++ (tag ++ (inner ++ (bt3 ++ post))))) = some inner := by
    rw [fenceMatch_skip _ pre hfirst]
    rcases htag with h | h
    · subst h
      simp only [List.nil_append]
      exact fenceMatch_untagged inner post (hng rfl) hc
    · subst h
      exact fenceMatch_tagged inner post hc
  unfold extract_gherkin_code
  rw [hfm]

/-- C1 witness: a tagged fenced block surrounded by commentary. -/
theorem extract_first_fenced_block_witness :
    extract_gherkin_code ("Intro text.\n".toList ++ (bt3 ++ (gherkinTag ++
      ("\nFeature: Login\n".toList ++ (bt3 ++ "\nDone.".toList)))))
      = pyStrip "\nFeature: Login\n".toList :=
  extract_first_fenced_block "Intro text.\n".toList gherkinTag
    "\nFeature: Login\n".toList "\nDone.".toList
    (Or.inr rfl) (by decide) (by decide) (fun h => absurd h (by decide))

/-- C2: a response with no fenced block in which `Feature:` occurs,
written as `pre ++ "Feature:" ++ rest` with no earlier occurrence of
`Feature:` inside `pre`, extracts to the trimmed suffix starting at
that first occurrence, excluding all of `pre`. -/
theorem extract_feature_suffix (pre rest : List Char)
    (hfence : fenceMatch (pre ++ (featureTok ++ rest)) = none)
    (hfirst : ∀ i, i < pre.length →
      lstarts featureTok ((pre ++ (featureTok ++ rest)).drop i) = false) :
    extract_gherkin_code (pre ++ (featureTok ++ rest)) = pyStrip (featureTok ++ rest) := by
  have hf : findSub featureTok (pre ++ (featureTok ++ rest)) = some pre.length := by
    apply findSub_eq_some (by decide) pre.length _ _ hfirst
    rw [List.drop_left]
    exact lstarts_append_self featureTok rest
  unfold extract_gherkin_code
  rw [hfence, hf]
  simp only [List.drop_left]

/-- C2 witness: `Feature:` preceded by commentary, no fences. -/
theorem extract_feature_suffix_witness :
    extract_gherkin_code ("The test:\n".toList ++ (featureTok ++ " Login\nGiven x".toList))
      = pyStrip (featureTok ++ " Login\nGiven x".toList) :=
  extract_feature_suffix "The test:\n".toList " Login\nGiven x".toList
    (by decide) (by decide)

theorem subLine_noop (phrase s : List Char)
    (h : lcStarts phrase (s.dropWhile isPySpace) = false) :
    subLeadingLine phrase s = s := by
  unfold subLeadingLine
  rw [h]
  simp

theorem subLine_strip (phrase s l1 rest : List Char)
    (hd : s.dropWhile isPySpace = l1 ++ ('\n' :: rest))
    (hm : lcStarts phrase l1 = true)
    (hnl : '\n' ∉ l1) :
    subLeadingLine phrase s = rest := by
  have hlen : phrase.length ≤ l1.length := by
    have := lstarts_length hm
    simpa using this
  have hcond : lcStarts phrase (l1 ++ ('\n' :: rest)) = true := by
    unfold lcStarts at hm ⊢
    rw [List.map_append]
    exact lstarts_extend _ hm
  have hsplit : (l1 ++ ('\n' :: rest)).drop phrase.length
      = l1.drop phrase.length ++ ('\n' :: rest) := by
    rw [List.drop_append_eq_append_drop, Nat.sub_eq_zero_of_le hlen, List.drop_zero]
  have hfind : findSub ['\n'] (l1.drop phrase.length ++ ('\n' :: rest))
      = some (l1.drop phrase.length).length := by
    apply findSub_eq_some (by decide) (l1.drop phrase.length).length
    · rw [List.drop_left]
      simp [lstarts]
    · intro i hi
      rw [List.drop_append_eq_append_drop, Nat.sub_eq_zero_of_le (Nat.le_of_lt hi),
        List.drop_zero]
      cases hA : (l1.drop phrase.length).drop i with
      | nil =>
        exfalso
        have hlen2 : (l1.drop phrase.length).length - i = 0 := by
          rw [← List.length_drop, hA]
          rfl
        omega
      | cons c cs =>
        have hcmem : c ∈ l1 :=
          List.drop_subset _ _ (List.drop_subset _ _ (hA ▸ List.mem_cons_self c cs))
        have hcne : c ≠ '\n' := fun h => hnl (h ▸ hcmem)
        simp only [List.cons_append, lstarts, lcStarts, Bool.and_eq_false_iff]
        left
        simp only [beq_eq_false_iff_ne, ne_eq]
        exact fun h => hcne h.symm
  unfold subLeadingLine
  rw [hd, hcond, if_pos rfl, hsplit, hfind]
  show ((l1.drop phrase.length) ++ ('\n' :: rest)).drop ((l1.drop phrase.length).length + 1)
    = rest
  rw [List.drop_append_eq_append_drop]
  rw [List.drop_eq_nil_of_le (Nat.le_succ _), Nat.add_sub_cancel_left]
  rfl

theorem lcStarts_clash {x y : Char} {p q l1 tail2 : List Char}
    (hxy : x.toLower ≠ y.toLower)
    (hm : lcStarts (x :: p) l1 = true) :
    lcStarts (y :: q) (l1 ++ tail2) = false := by
  cases l1 with
  | nil => exact absurd hm (by simp [lcStarts, lstarts])
  | cons c t =>
    simp only [lcStarts, List.map_cons, lstarts, Bool.and_eq_true, beq_iff_eq] at hm
    simp only [List.cons_append, lcStarts, List.map_cons, List.map_append, lstarts]
    have hyc : y.toLower ≠ c.toLower := fun h => hxy (hm.1.trans h.symm)
    simp [hyc]

/-- C7 amended: on a response with no fenced block and no `Feature:`,
whose text after optional leading whitespace begins with a line
matching (case-insensitively) one of `Certainly!`, `Here is` or
`Below is` followed by a newline, the extractor removes that line and
returns the trimmed remainder, provided the remainder is not itself
altered by the remaining substitutions (the three patterns are applied
in sequence, so up to three leading lines can be removed, one per
pattern, in the order `Certainly!`, `Here is`, `Below is`). -/
theorem extract_leading_phrase_line (s l1 rest : List Char)
    (hfence : fenceMatch s = none)
    (hfeat : findSub featureTok s = none)
    (hd : s.dropWhile isPySpace = l1 ++ ('\n' :: rest))
    (hnl : '\n' ∉ l1)
    (hm : lcStarts certainlyTok l1 = true ∨ lcStarts hereIsTok l1 = true ∨
      lcStarts belowIsTok l1 = true)
    (hr2 : subLeadingLine hereIsTok rest = rest)
    (hr3 : subLeadingLine belowIsTok rest = rest) :
    extract_gherkin_code s = pyStrip rest := by
  unfold extract_gherkin_code
  rw [hfence, hfeat]
  show pyStrip (subLeadingLine belowIsTok
    (subLeadingLine hereIsTok (subLeadingLine certainlyTok s))) = pyStrip rest
  rcases hm with h | h | h
  · rw [subLine_strip certainlyTok s l1 rest hd h hnl, hr2, hr3]
  · have hno1 : lcStarts certainlyTok (s.dropWhile isPySpace) = false := by
      rw [hd]
      exact lcStarts_clash (by decide) h
    rw [subLine_noop _ _ hno1, subLine_strip hereIsTok s l1 rest hd h hnl, hr3]
  · have hno1 : lcStarts certainlyTok (s.dropWhile isPySpace) = false := by
      rw [hd]
      exact lcStarts_clash (by decide) h
    have hno2 : lcStarts hereIsTok (s.dropWhile isPySpace) = false := by
      rw [hd]
      exact lcStarts_clash (by decide) h
    rw [subLine_noop _ _ hno1, subLine_noop _ _ hno2,
      subLine_strip belowIsTok s l1 rest hd h hnl]

/-- C7 witness: the spec's own example, `Here is the Gherkin code:`
followed by content with no `Feature:` token. -/
theorem extract_leading_phrase_line_witness :
    extract_gherkin_code "Here is the Gherkin code:\nGiven a user".toList
      = pyStrip "Given a user".toList :=
  extract_leading_phrase_line "Here is the Gherkin code:\nGiven a user".toList
    "Here is the Gherkin code:".toList "Given a user".toList
    (by decide) (by decide) (by decide) (by decide)
    (Or.inr (Or.inl (by decide))) (by decide) (by decide)

/-- C7 counterexample: the claim says the extractor strips the leading
matching line and returns the trimmed remainder.  For a response whose
first line matches `Certainly!` and whose second line matches
`Here is`, the code strips both lines (the three substitutions are
applied in sequence), so the result is not the trimmed remainder
after the leading line. -/
theorem extract_leading_phrase_line_counterexample :
    extract_gherkin_code "Certainly! Sure.\nHere is the code\nmore text".toList
      = "more text".toList
    ∧ pyStrip "Here is the code\nmore text".toList = "Here is the code\nmore text".toList
    ∧ "more text".toList ≠ "Here is the code\nmore text".toList := by
  refine ⟨by decide, by decide, by decide⟩

/-- C6: for a test definition with no `api_calls` field, the Prompt
Builder produces the template with an empty workflow section (the join
of the empty enumeration), and being a total function it does not
fail. -/
theorem build_prompt_no_api_calls (td : TestData) (h : td.api_calls = none) :
    build_prompt td = promptText (td.test_description.getD "") (td.test_code.getD "")
      "" (td.response_schema.getD schemaDefault) := by
  unfold build_prompt
  rw [h]
  rfl

/-- C6 witness: the all-defaults test definition. -/
theorem build_prompt_no_api_calls_witness :
    build_prompt ⟨none, none, none, none⟩ = promptText "" "" "" schemaDefault :=
  build_prompt_no_api_calls ⟨none, none, none, none⟩ rfl

set_option maxRecDepth 40000 in
/-- C5 counterexample: for a test definition whose single workflow step
has `step = 5` and every other field absent, the claim predicts the
prompt `promptText "" "" "Step 1:  ( )" ""` (absent fields rendered as
empty strings, the step number being the 1-based position).  The code
instead renders the absent `name` as `API Call`, the absent `method` as
`GET`, the absent `response_schema` as the empty JSON object, and the
present `step` as its own value `5`. -/
theorem build_prompt_defaults_counterexample :
    build_prompt ⟨none, none, some [⟨some 5, none, none, none⟩], none⟩
      = promptText "" "" "Step 5: API Call (GET )" schemaDefault
    ∧ build_prompt ⟨none, none, some [⟨some 5, none, none, none⟩], none⟩
      ≠ promptText "" "" "Step 1:  ( )" "" := by
  exact ⟨by decide, by decide⟩

set_option maxRecDepth 40000 in
/-- C5 amended: absent `test_description`, `test_code` and `api_url`
fields render as empty strings, but an absent `name` renders as
`API Call`, an absent `method` renders as `GET`, and an absent
`response_schema` renders as the empty JSON object; a step number
renders as the record's own `step` value when that field is present,
and as the step's 1-based position only when it is absent. -/
theorem build_prompt_defaults (idx : Nat) (c : ApiCall) (td : TestData)
    (h2 : c.name = none) (h3 : c.method = none) (h4 : c.api_url = none)
    (h5 : td.test_description = none) (h6 : td.test_code = none)
    (h7 : td.response_schema = none) (h8 : td.api_calls = some [c]) :
    (∀ n : Int, c.step = some n →
      renderStep idx c = "Step " ++ (toString n ++ ": API Call (GET )")
      ∧ build_prompt td
          = promptText "" "" ("Step " ++ (toString n ++ ": API Call (GET )")) schemaDefault)
    ∧ (c.step = none →
      renderStep idx c = "Step " ++ (toString (idx + 1) ++ ": API Call (GET )")
      ∧ build_prompt td = promptText "" "" "Step 1: API Call (GET )" schemaDefault) := by
  obtain ⟨cs, cn, cm, cu⟩ := c
  obtain ⟨t1, t2, t3, t4⟩ := td
  simp only at h2 h3 h4 h5 h6 h7 h8
  subst h2 h3 h4 h5 h6 h7 h8
  constructor
  · intro n hn
    simp only at hn
    subst hn
    have hrs : ∀ j : Nat, renderStep j ⟨some n, none, none, none⟩
        = "Step " ++ (toString n ++ ": API Call (GET )") := by
      intro j
      show "Step " ++ toString n ++ ": " ++ "API Call" ++ " (" ++ "GET" ++ " " ++ "" ++ ")"
        = "Step " ++ (toString n ++ ": API Call (GET )")
      simp only [String.append_assoc]
      congr 1
    refine ⟨hrs idx, ?_⟩
    have hb : build_prompt ⟨none, none, some [⟨some n, none, none, none⟩], none⟩
        = promptText "" "" (renderStep 0 ⟨some n, none, none, none⟩) schemaDefault := rfl
    rw [hb, hrs 0]
  · intro hn
    simp only at hn
    subst hn
    constructor
    · show "Step " ++ toString (idx + 1) ++ ": " ++ "API Call" ++ " (" ++ "GET" ++ " " ++ "" ++ ")"
        = "Step " ++ (toString (idx + 1) ++ ": API Call (GET )")
      simp only [String.append_assoc]
      congr 1
    · decide

/-- C5 witness for the amended claim, exercising both cases: a step
record with `step = 5` renders with its own number, and an all-absent
step record at position 3 renders with the 1-based position 4. -/
theorem build_prompt_defaults_witness :
    (renderStep 3 ⟨some 5, none, none, none⟩ = "Step 5: API Call (GET )"
      ∧ build_prompt ⟨none, none, some [⟨some 5, none, none, none⟩], none⟩
          = promptText "" "" "Step 5: API Call (GET )" schemaDefault)
    ∧ (renderStep 3 ⟨none, none, none, none⟩ = "Step 4: API Call (GET )"
      ∧ build_prompt ⟨none, none, some [⟨none, none, none, none⟩], none⟩
          = promptText "" "" "Step 1: API Call (GET )" schemaDefault) :=
  ⟨(build_prompt_defaults 3 ⟨some 5, none, none, none⟩
      ⟨none, none, some [⟨some 5, none, none, none⟩], none⟩
      rfl rfl rfl rfl rfl rfl rfl).1 5 rfl,
    (build_prompt_defaults 3 ⟨none, none, none, none⟩
      ⟨none, none, some [⟨none, none, none, none⟩], none⟩
      rfl rfl rfl rfl rfl rfl rfl).2 rfl⟩

theorem processOneFile_fst (complete : String → Except String (Option String))
    (base platform : String) (fs : FS) (l1 l2 : List String) (f : InputFile) :
    (processOneFile complete base platform (fs, l1) f).1
      = (processOneFile complete base platform (fs, l2) f).1 := by
  cases hp : f.parse with
  | error e => simp only [processOneFile, hp]
  | ok td =>
    simp only [processOneFile, hp]
    cases hg : (generate_gherkin_with_llm complete td).1 with
    | none => rfl
    | some content =>
      by_cases hc : content = ""
      · simp [hc]
      · simp only [if_neg hc]

theorem foldl_process_fst (complete : String → Except String (Option String))
    (base platform : String) :
    ∀ (files : List InputFile) (fs : FS) (l1 l2 : List String),
      (List.foldl (processOneFile complete base platform) (fs, l1) files).1
        = (List.foldl (processOneFile complete base platform) (fs, l2) files).1 := by
  intro files
  induction files with
  | nil => intro fs l1 l2; rfl
  | cons f rest ih =>
    intro fs l1 l2
    simp only [List.foldl_cons]
    have h1 : processOneFile complete base platform (fs, l1) f
        = ((processOneFile complete base platform (fs, l1) f).1,
           (processOneFile complete base platform (fs, l1) f).2) := rfl
    have h2 : processOneFile complete base platform (fs, l2) f
        = ((processOneFile complete base platform (fs, l2) f).1,
           (processOneFile complete base platform (fs, l2) f).2) := rfl
    rw [h1, h2, processOneFile_fst complete base platform fs l1 l2 f]
    exact ih _ _ _

/-- C3: a completion call that raises makes `generate_gherkin_with_llm`
log the error and return `None`; the per-file body then leaves the
filesystem untouched (no output file is created), and the platform loop
over the remaining files computes the same filesystem as if the failing
file were absent — processing continues with the next file, and since
the loop body is a total function, no exception escapes the loop. -/
theorem completion_error_skips_file (complete : String → Except String (Option String))
    (base platform : String) (f : InputFile) (td : TestData) (e : String)
    (pre post : List InputFile) (fs : FS) (log : List String)
    (hp : f.parse = .ok td)
    (hc : complete (build_prompt td) = .error e) :
    generate_gherkin_with_llm complete td
        = (none, ["    Error generating Gherkin code: " ++ e])
    ∧ (processOneFile complete base platform (fs, log) f).1 = fs
    ∧ (runPlatformFiles complete base platform (pre ++ (f :: post)) (fs, log)).1
        = (runPlatformFiles complete base platform (pre ++ post) (fs, log)).1 := by
  have hg : generate_gherkin_with_llm complete td
      = (none, ["    Error generating Gherkin code: " ++ e]) := by
    unfold generate_gherkin_with_llm
    rw [hc]
  have hskip : ∀ st : FS × List String,
      (processOneFile complete base platform st f).1 = st.1 := by
    intro st
    simp only [processOneFile, hp, hg]
  refine ⟨hg, hskip (fs, log), ?_⟩
  unfold runPlatformFiles
  rw [List.foldl_append, List.foldl_append, List.foldl_cons]
  have h1 : processOneFile complete base platform
      (List.foldl (processOneFile complete base platform) (fs, log) pre) f
      = ((List.foldl (processOneFile complete base platform) (fs, log) pre).1,
         (processOneFile complete base platform
           (List.foldl (processOneFile complete base platform) (fs, log) pre) f).2) := by
    rw [← hskip (List.foldl (processOneFile complete base platform) (fs, log) pre)]
  rw [h1]
  exact foldl_process_fst complete base platform post _ _ _

/-- C3 witness: an oracle that always raises, one file, empty
surroundings. -/
theorem completion_error_skips_file_witness :
    generate_gherkin_with_llm (fun _ => .error "boom") ⟨none, none, none, none⟩
        = (none, ["    Error generating Gherkin code: " ++ "boom"])
    ∧ (processOneFile (fun _ => .error "boom") "b" "common"
        ((fun _ => none : FS), []) ⟨"t1", .ok ⟨none, none, none, none⟩⟩).1 = (fun _ => none)
    ∧ (runPlatformFiles (fun _ => .error "boom") "b" "common"
        ([] ++ (⟨"t1", .ok ⟨none, none, none, none⟩⟩ :: [])) ((fun _ => none : FS), [])).1
        = (runPlatformFiles (fun _ => .error "boom") "b" "common" ([] ++ [])
            ((fun _ => none : FS), [])).1 :=
  completion_error_skips_file (fun _ => .error "boom") "b" "common"
    ⟨"t1", .ok ⟨none, none, none, none⟩⟩ ⟨none, none, none, none⟩ "boom"
    [] [] (fun _ => none) [] rfl rfl

/-- C4: if any of the four required configuration values is absent at
startup, the run terminates with exit status 1 and the guidance
message, for every completion oracle, platform layout and initial
filesystem — so no network call is made and no file is processed. -/
theorem missing_config_exits (cfg : Config)
    (h : cfg.api_key = none ∨ cfg.endpoint = none ∨ cfg.api_version = none ∨
      cfg.model = none) :
    ∀ (complete : String → Except String (Option String)) (base : String)
      (lookup : String → Option (List InputFile)) (fs : FS),
      mainRun cfg complete base lookup fs = .error (1, guidance) := by
  intro complete base lookup fs
  have hv : configValid cfg = false := by
    unfold configValid
    rcases h with h | h | h | h <;> rw [h] <;> simp [pyTruthy]
  unfold mainRun
  rw [hv]
  simp

/-- C4 witness: a configuration with the API key unset. -/
theorem missing_config_exits_witness :
    mainRun ⟨some "2024-02-01", some "https://example", some "gpt4", none⟩
      (fun _ => .ok none) "b" (fun _ => none) (fun _ => none) = .error (1, guidance) :=
  missing_config_exits ⟨some "2024-02-01", some "https://example", some "gpt4", none⟩
    (Or.inl rfl) (fun _ => .ok none) "b" (fun _ => none) (fun _ => none)

theorem processOneFile_writes (complete : String → Except String (Option String))
    (base platform : String) (fs : FS) (log : List String) (f : InputFile)
    (td : TestData) (content : String)
    (hp : f.parse = .ok td)
    (hg : (generate_gherkin_with_llm complete td).1 = some content)
    (hne : content ≠ "") :
    (processOneFile complete base platform (fs, log) f).1
      = fsWrite fs (gherkinPath base platform (td.test_code.getD f.stem)) content
    ∧ (processOneFile complete base platform (fs, log) f).1
        (gherkinPath base platform (td.test_code.getD f.stem)) = some content := by
  have h1 : (processOneFile complete base platform (fs, log) f).1
      = fsWrite fs (gherkinPath base platform (td.test_code.getD f.stem)) content := by
    simp only [processOneFile, hp, hg, if_neg hne]
  refine ⟨h1, ?_⟩
  rw [h1]
  unfold fsWrite
  rw [if_pos rfl]

/-- C8: a successfully processed file (parse succeeded, the wrapper
returned a non-empty artifact) is written exactly to
`<base>/gherkin/<platform>/<test_code>.gherkin`, where `test_code` is
the record's `test_code` field or, when absent, the file stem;
whatever the filesystem previously held at that path, it now holds the
new artifact — existing files are overwritten. -/
theorem artifact_written_to_path (complete : String → Except String (Option String))
    (base platform : String) (fs : FS) (log : List String) (f : InputFile)
    (td : TestData) (content : String)
    (hp : f.parse = .ok td)
    (hg : (generate_gherkin_with_llm complete td).1 = some content)
    (hne : content ≠ "") :
    (processOneFile complete base platform (fs, log) f).1
      = fsWrite fs (gherkinPath base platform (td.test_code.getD f.stem)) content
    ∧ (processOneFile complete base platform (fs, log) f).1
        (gherkinPath base platform (td.test_code.getD f.stem)) = some content :=
  processOneFile_writes complete base platform fs log f td content hp hg hne

/-- C8 witness: a record without `test_code`, so the path uses the file
stem; the initial filesystem already holds an old artifact at that
path, and it is overwritten. -/
theorem artifact_written_to_path_witness :
    (processOneFile (fun _ => .ok (some "Feature: Hi")) "base" "aws"
        ((fun _ => some "old" : FS), []) ⟨"TC9", .ok ⟨none, none, none, none⟩⟩).1
      = fsWrite (fun _ => some "old") (gherkinPath "base" "aws" "TC9") "Feature: Hi"
    ∧ (processOneFile (fun _ => .ok (some "Feature: Hi")) "base" "aws"
        ((fun _ => some "old" : FS), []) ⟨"TC9", .ok ⟨none, none, none, none⟩⟩).1
        (gherkinPath "base" "aws" "TC9") = some "Feature: Hi" :=
  artifact_written_to_path (fun _ => .ok (some "Feature: Hi")) "base" "aws"
    (fun _ => some "old") [] ⟨"TC9", .ok ⟨none, none, none, none⟩⟩
    ⟨none, none, none, none⟩ "Feature: Hi" rfl (by decide) (by decide)

/-- C9: when the completion response carries no content (`None` or the
empty string), the pipeline substitutes the literal
`Failed to generate Gherkin code`; the Text Extractor returns that
string unchanged, and being non-empty it is written to the output
`.gherkin` file instead of the file being skipped. -/
theorem fallback_written (complete : String → Except String (Option String))
    (base platform : String) (fs : FS) (log : List String) (f : InputFile)
    (td : TestData)
    (hp : f.parse = .ok td)
    (hc : complete (build_prompt td) = .ok none ∨
      complete (build_prompt td) = .ok (some "")) :
    generate_gherkin_with_llm complete td = (some fallbackMsg, [])
    ∧ (extract_gherkin_code fallbackMsg.toList).asString = fallbackMsg
    ∧ (processOneFile complete base platform (fs, log) f).1
        (gherkinPath base platform (td.test_code.getD f.stem)) = some fallbackMsg := by
  have hext : (extract_gherkin_code fallbackMsg.toList).asString = fallbackMsg := by decide
  have hext2 : (extract_gherkin_code fallbackMsg.data).asString = fallbackMsg := hext
  have hg : generate_gherkin_with_llm complete td = (some fallbackMsg, []) := by
    unfold generate_gherkin_with_llm
    rcases hc with h | h <;> rw [h] <;> simp [orFallback, hext2]
  have hfst : (generate_gherkin_with_llm complete td).1 = some fallbackMsg := by rw [hg]
  have hne : fallbackMsg ≠ "" := by decide
  exact ⟨hg, hext,
    (processOneFile_writes complete base platform fs log f td fallbackMsg hp hfst hne).2⟩

/-- C9 witness: an oracle returning a `None` content. -/
theorem fallback_written_witness :
    generate_gherkin_with_llm (fun _ => .ok none) ⟨none, some "TC2", none, none⟩
        = (some fallbackMsg, [])
    ∧ (extract_gherkin_code fallbackMsg.toList).asString = fallbackMsg
    ∧ (processOneFile (fun _ => .ok none) "b" "azure" ((fun _ => none : FS), [])
        ⟨"TC2file", .ok ⟨none, some "TC2", none, none⟩⟩).1
        (gherkinPath "b" "azure" "TC2") = some fallbackMsg :=
  fallback_written (fun _ => .ok none) "b" "azure" (fun _ => none) []
    ⟨"TC2file", .ok ⟨none, some "TC2", none, none⟩⟩ ⟨none, some "TC2", none, none⟩
    rfl (Or.inl rfl)

end Gherkin
